import Mathlib

/-!
# Verification of the job-lifecycle client (src/frontend/src/App.tsx)

Shallow embedding of the browser client's job lifecycle: the submit handler
(`handleSubmit`), the server-push stream handler (the `onmessage` / `onerror`
callbacks installed by the `useEffect` keyed on the job identifier), and the
connection-lifecycle discipline imposed by that effect (cleanup of the previous
`EventSource` before the next effect body runs).

Modelling conventions, each mirroring a JavaScript fact of the source:
* A JSON string field that may be absent is modelled as `String`, with `""`
  standing for both the empty string and an absent field — the source only
  inspects these fields through JavaScript truthiness (`data.data || fallback`,
  `if (data.filename)`), under which `undefined` and `""` behave identically.
* `JSON.parse` failure is modelled by the constructor `StreamMsg.malformed`:
  the `catch` branch of the handler logs to the console and changes no state.
* `eventSource.close()` is modelled by the flag `connOpen := false`; the
  browser delivers no callback on a closed `EventSource`, so the dispatcher
  `streamStep` is the identity once `connOpen = false`.
* The synthetic-click download (`dlLink.click()`) is modelled by recording the
  download URL in the `downloads` list; the source ignores the click's outcome,
  so no failure of the download can feed back into the state.
* `null` and `undefined` job identifiers are both modelled as `none`: the
  effect guard `if (!jobId …) return` treats them identically.
-/

namespace AiHrPlatform

/-- The four values of the `status` state variable in `App.tsx`. -/
inductive Status where
  | idle
  | loading
  | success
  | error
deriving DecidableEq, Repr

/-- The `ReportCard` interface of `App.tsx`: every field optional. -/
structure ReportCard where
  match_score : Option Int
  chosen_keywords : Option (List String)
  missing_keywords : Option (List String)
  error : Option String
  raw : Option String
deriving DecidableEq, Repr

/-- The empty object `{}` used as the report default in the `complete` branch. -/
def emptyReport : ReportCard := ⟨none, none, none, none, none⟩

/-- A successfully parsed stream envelope `{ type, data?, report?, filename? }`.
`data` and `filename` use `""` for an absent field (see module conventions). -/
structure StreamData where
  type : String
  data : String
  report : Option ReportCard
  filename : String
deriving DecidableEq, Repr

/-- An inbound `message` payload: either valid JSON or a payload on which
`JSON.parse` throws. -/
inductive StreamMsg where
  | malformed
  | parsed (d : StreamData)
deriving DecidableEq, Repr

/-- An event delivered by the `EventSource`: a `message` callback or a
transport-level failure (`onerror`). -/
inductive StreamEvent where
  | message (m : StreamMsg)
  | transportFailure
deriving DecidableEq, Repr

/-- The component state touched by the stream handler, plus the open/closed
state of the current connection and the record of fired downloads. -/
structure StreamState where
  status : Status
  errorMessage : String
  logs : List String
  report : Option ReportCard
  connOpen : Bool
  downloads : List String
deriving DecidableEq, Repr

/-- `eventSource.onmessage` from `App.tsx` (lines 40–67): dispatch on
`data.type` after a successful parse; the `catch` branch leaves the state
unchanged. `apiUrl` and `jobId` are the values captured by the effect closure
and appear only in the download URL. -/
def onmessage (apiUrl jobId : String) (s : StreamState) (m : StreamMsg) : StreamState :=
  match m with
  | .malformed => s
  | .parsed d =>
    if d.type = "log" then
      { s with logs := s.logs ++ [d.data] }
    else if d.type = "complete" then
      let s1 : StreamState :=
        { s with report := some (d.report.getD emptyReport)
                 status := Status.success
                 connOpen := false }
      if d.filename ≠ "" then
        { s1 with downloads := s1.downloads ++ [apiUrl ++ "/api/download-pdf/" ++ jobId] }
      else
        s1
    else if d.type = "error" then
      { s with errorMessage := if d.data = "" then "Unknown error during streaming" else d.data
               status := Status.error
               connOpen := false }
    else
      s

/-- `eventSource.onerror` from `App.tsx` (lines 69–73). -/
def onerror (s : StreamState) : StreamState :=
  { s with errorMessage := "Lost connection to server"
           status := Status.error
           connOpen := false }

/-- One delivered event: a closed `EventSource` fires no callbacks, so the
step is the identity when the connection is closed. -/
def streamStep (apiUrl jobId : String) (s : StreamState) (e : StreamEvent) : StreamState :=
  if s.connOpen then
    match e with
    | .message m => onmessage apiUrl jobId s m
    | .transportFailure => onerror s
  else
    s

/-- Process a whole arrival-ordered sequence of stream events. -/
def runStream (apiUrl jobId : String) (s : StreamState) (es : List StreamEvent) : StreamState :=
  es.foldl (streamStep apiUrl jobId) s

/-- An event is terminal when it is a transport failure or a parsed envelope
of type `complete` or `error`. -/
def StreamEvent.isTerminal : StreamEvent → Bool
  | .transportFailure => true
  | .message .malformed => false
  | .message (.parsed d) => d.type = "complete" || d.type = "error"

/-- The log line contributed by one event: the `data` field of a parsed
`log` envelope, nothing otherwise. -/
def logLine : StreamEvent → List String
  | .message (.parsed d) => if d.type = "log" then [d.data] else []
  | _ => []

/-- The log lines contributed by a sequence of events, in arrival order. -/
def logLines : List StreamEvent → List String
  | [] => []
  | e :: es => logLine e ++ logLines es

/-- The error message a terminal error-like event produces: the `error`
branch's `data.data || "Unknown error during streaming"`, or `onerror`'s
fixed message; `none` for non-error events. -/
def terminalErrorMsg : StreamEvent → Option String
  | .transportFailure => some "Lost connection to server"
  | .message (.parsed d) =>
    if d.type = "error" then
      some (if d.data = "" then "Unknown error during streaming" else d.data)
    else
      none
  | .message .malformed => none

theorem streamStep_closed (apiUrl jobId : String) (s : StreamState) (e : StreamEvent)
    (h : s.connOpen = false) : streamStep apiUrl jobId s e = s := by
  simp [streamStep, h]

theorem runStream_closed (apiUrl jobId : String) (s : StreamState) (es : List StreamEvent)
    (h : s.connOpen = false) : runStream apiUrl jobId s es = s := by
  induction es with
  | nil => rfl
  | cons e es ih =>
    show runStream apiUrl jobId (streamStep apiUrl jobId s e) es = s
    rw [streamStep_closed apiUrl jobId s e h]
    exact ih

theorem streamStep_nonterminal (apiUrl jobId : String) (s : StreamState) (e : StreamEvent)
    (hc : s.connOpen = true) (ht : e.isTerminal = false) :
    streamStep apiUrl jobId s e = { s with logs := s.logs ++ logLine e } := by
  obtain ⟨st, em, lg, rp, co, dl⟩ := s
  cases hc
  cases e with
  | transportFailure => simp [StreamEvent.isTerminal] at ht
  | message m =>
    cases m with
    | malformed =>
      simp [streamStep, onmessage, logLine]
    | parsed d =>
      simp only [StreamEvent.isTerminal, Bool.or_eq_false_iff, decide_eq_false_iff_not] at ht
      obtain ⟨hcomp, herr⟩ := ht
      by_cases hlog : d.type = "log"
      · simp [streamStep, onmessage, hlog, logLine]
      · simp [streamStep, onmessage, hlog, hcomp, herr, logLine]

theorem runStream_nonterminal (apiUrl jobId : String) (s : StreamState) (es : List StreamEvent)
    (hc : s.connOpen = true) (h : ∀ e ∈ es, e.isTerminal = false) :
    runStream apiUrl jobId s es = { s with logs := s.logs ++ logLines es } := by
  induction es generalizing s with
  | nil => simp [runStream, logLines]
  | cons e es ih =>
    have he : e.isTerminal = false := h e (List.mem_cons_self e es)
    have hrest : ∀ x ∈ es, x.isTerminal = false := fun x hx => h x (List.mem_cons_of_mem e hx)
    show runStream apiUrl jobId (streamStep apiUrl jobId s e) es = _
    rw [streamStep_nonterminal apiUrl jobId s e hc he]
    rw [ih { s with logs := s.logs ++ logLine e } hc hrest]
    simp [logLines, List.append_assoc]

theorem streamStep_complete (apiUrl jobId : String) (s : StreamState) (d : StreamData)
    (hc : s.connOpen = true) (hd : d.type = "complete") :
    streamStep apiUrl jobId s (StreamEvent.message (StreamMsg.parsed d)) =
      { s with report := some (d.report.getD emptyReport)
               status := Status.success
               connOpen := false
               downloads :=
                 if d.filename = "" then s.downloads
                 else s.downloads ++ [apiUrl ++ "/api/download-pdf/" ++ jobId] } := by
  obtain ⟨st, em, lg, rp, co, dl⟩ := s
  cases hc
  by_cases hf : d.filename = ""
  · simp [streamStep, onmessage, hd, hf]
  · simp [streamStep, onmessage, hd, hf]

theorem streamStep_errorlike (apiUrl jobId : String) (s : StreamState) (e : StreamEvent)
    (msg : String) (hc : s.connOpen = true) (hmsg : terminalErrorMsg e = some msg) :
    streamStep apiUrl jobId s e =
      { s with errorMessage := msg
               status := Status.error
               connOpen := false } := by
  obtain ⟨st, em, lg, rp, co, dl⟩ := s
  cases hc
  cases e with
  | transportFailure =>
    simp only [terminalErrorMsg, Option.some.injEq] at hmsg
    simp [streamStep, onerror, hmsg]
  | message m =>
    cases m with
    | malformed => simp [terminalErrorMsg] at hmsg
    | parsed d =>
      by_cases hd : d.type = "error"
      · simp only [terminalErrorMsg, hd, if_pos, Option.some.injEq] at hmsg
        simp [streamStep, onmessage, hd, hmsg]
      · simp [terminalErrorMsg, hd] at hmsg

/-- C2: for every sequence of stream events whose first terminal event is a
`complete` event, the handler records the event's report (defaulting to the
empty object when the `report` field is absent), sets the status to `success`,
closes the connection, and no event after that first terminal event changes
any state: processing the whole sequence equals processing only the prefix up
to and including the `complete` event. -/
theorem complete_event_final_state (apiUrl jobId : String) (init : StreamState)
    (pre post : List StreamEvent) (d : StreamData)
    (hopen : init.connOpen = true)
    (hpre : ∀ e ∈ pre, e.isTerminal = false)
    (hd : d.type = "complete") :
    runStream apiUrl jobId init (pre ++ StreamEvent.message (StreamMsg.parsed d) :: post)
      = runStream apiUrl jobId init (pre ++ [StreamEvent.message (StreamMsg.parsed d)])
    ∧ (runStream apiUrl jobId init
        (pre ++ StreamEvent.message (StreamMsg.parsed d) :: post)).status = Status.success
    ∧ (runStream apiUrl jobId init
        (pre ++ StreamEvent.message (StreamMsg.parsed d) :: post)).report
        = some (d.report.getD emptyReport)
    ∧ (runStream apiUrl jobId init
        (pre ++ StreamEvent.message (StreamMsg.parsed d) :: post)).connOpen = false := by
  have hmid := runStream_nonterminal apiUrl jobId init pre hopen hpre
  have hsplit : ∀ l2 : List StreamEvent,
      runStream apiUrl jobId init (pre ++ l2)
        = runStream apiUrl jobId (runStream apiUrl jobId init pre) l2 := by
    intro l2
    simp [runStream, List.foldl_append]
  have hstep := streamStep_complete apiUrl jobId (runStream apiUrl jobId init pre) d
    (by rw [hmid]; exact hopen) hd
  have hclosed : (streamStep apiUrl jobId (runStream apiUrl jobId init pre)
      (StreamEvent.message (StreamMsg.parsed d))).connOpen = false := by
    rw [hstep]
  have hrun : runStream apiUrl jobId init
      (pre ++ StreamEvent.message (StreamMsg.parsed d) :: post)
      = streamStep apiUrl jobId (runStream apiUrl jobId init pre)
          (StreamEvent.message (StreamMsg.parsed d)) := by
    rw [hsplit]
    show runStream apiUrl jobId (streamStep apiUrl jobId _ _) post = _
    exact runStream_closed apiUrl jobId _ post hclosed
  have hone : runStream apiUrl jobId init (pre ++ [StreamEvent.message (StreamMsg.parsed d)])
      = streamStep apiUrl jobId (runStream apiUrl jobId init pre)
          (StreamEvent.message (StreamMsg.parsed d)) := by
    rw [hsplit]
    rfl
  refine ⟨by rw [hrun, hone], ?_, ?_, ?_⟩ <;> rw [hrun, hstep]

/-- Witness for `complete_event_final_state`: scenario A of the spec — two log
lines, then a `complete` carrying a report and a filename, then a late event. -/
theorem complete_event_final_state_witness :
    (∀ e ∈ [StreamEvent.message (StreamMsg.parsed ⟨"log", "parsing", none, ""⟩),
            StreamEvent.message (StreamMsg.parsed ⟨"log", "scoring", none, ""⟩)],
        e.isTerminal = false)
    ∧ (runStream "http://localhost:5000" "abc"
        ⟨Status.loading, "", [], none, true, []⟩
        ([StreamEvent.message (StreamMsg.parsed ⟨"log", "parsing", none, ""⟩),
          StreamEvent.message (StreamMsg.parsed ⟨"log", "scoring", none, ""⟩)]
          ++ StreamEvent.message (StreamMsg.parsed
              ⟨"complete", "", some ⟨some 82, some ["SQL"], some ["Go"], none, none⟩,
                "tailored.pdf"⟩)
            :: [StreamEvent.message (StreamMsg.parsed ⟨"log", "late", none, ""⟩)])).status
        = Status.success := by
  refine ⟨by decide, ?_⟩
  exact (complete_event_final_state "http://localhost:5000" "abc"
    ⟨Status.loading, "", [], none, true, []⟩
    [StreamEvent.message (StreamMsg.parsed ⟨"log", "parsing", none, ""⟩),
     StreamEvent.message (StreamMsg.parsed ⟨"log", "scoring", none, ""⟩)]
    [StreamEvent.message (StreamMsg.parsed ⟨"log", "late", none, ""⟩)]
    ⟨"complete", "", some ⟨some 82, some ["SQL"], some ["Go"], none, none⟩, "tailored.pdf"⟩
    rfl (by decide) rfl).2.1

/-- C3: for every sequence of stream events whose first terminal event is a
semantic `error` event or a transport failure, the final status is `error`,
the error message is the event's `data` (with the generic fallback
`"Unknown error during streaming"` when it is empty, and
`"Lost connection to server"` for a transport failure), the connection is
closed, and the log buffer holds exactly the log lines received strictly
before the terminal event, in arrival order; events after the terminal one
change nothing. -/
theorem error_event_final_state (apiUrl jobId : String) (init : StreamState)
    (pre post : List StreamEvent) (e : StreamEvent) (msg : String)
    (hopen : init.connOpen = true)
    (hlogs : init.logs = [])
    (hpre : ∀ x ∈ pre, x.isTerminal = false)
    (hmsg : terminalErrorMsg e = some msg) :
    runStream apiUrl jobId init (pre ++ e :: post)
      = runStream apiUrl jobId init (pre ++ [e])
    ∧ (runStream apiUrl jobId init (pre ++ e :: post)).status = Status.error
    ∧ (runStream apiUrl jobId init (pre ++ e :: post)).errorMessage = msg
    ∧ (runStream apiUrl jobId init (pre ++ e :: post)).connOpen = false
    ∧ (runStream apiUrl jobId init (pre ++ e :: post)).logs = logLines pre := by
  have hmid := runStream_nonterminal apiUrl jobId init pre hopen hpre
  have hsplit : ∀ l2 : List StreamEvent,
      runStream apiUrl jobId init (pre ++ l2)
        = runStream apiUrl jobId (runStream apiUrl jobId init pre) l2 := by
    intro l2
    simp [runStream, List.foldl_append]
  have hstep := streamStep_errorlike apiUrl jobId (runStream apiUrl jobId init pre) e msg
    (by rw [hmid]; exact hopen) hmsg
  have hclosed : (streamStep apiUrl jobId (runStream apiUrl jobId init pre) e).connOpen
      = false := by
    rw [hstep]
  have hrun : runStream apiUrl jobId init (pre ++ e :: post)
      = streamStep apiUrl jobId (runStream apiUrl jobId init pre) e := by
    rw [hsplit]
    show runStream apiUrl jobId (streamStep apiUrl jobId _ _) post = _
    exact runStream_closed apiUrl jobId _ post hclosed
  have hone : runStream apiUrl jobId init (pre ++ [e])
      = streamStep apiUrl jobId (runStream apiUrl jobId init pre) e := by
    rw [hsplit]
    rfl
  refine ⟨by rw [hrun, hone], ?_, ?_, ?_, ?_⟩
  · rw [hrun, hstep]
  · rw [hrun, hstep]
  · rw [hrun, hstep]
  · rw [hrun, hstep]
    simp [hmid, hlogs]

/-- Witness for `error_event_final_state`: scenario C of the spec — one log
line, then a semantic error `"upstream timeout"`, then a late log event. -/
theorem error_event_final_state_witness :
    (∀ x ∈ [StreamEvent.message (StreamMsg.parsed ⟨"log", "parsing", none, ""⟩)],
        x.isTerminal = false)
    ∧ terminalErrorMsg (StreamEvent.message (StreamMsg.parsed
        ⟨"error", "upstream timeout", none, ""⟩)) = some "upstream timeout"
    ∧ ((runStream "http://localhost:5000" "abc"
          ⟨Status.loading, "", [], none, true, []⟩
          ([StreamEvent.message (StreamMsg.parsed ⟨"log", "parsing", none, ""⟩)]
            ++ StreamEvent.message (StreamMsg.parsed ⟨"error", "upstream timeout", none, ""⟩)
              :: [StreamEvent.message (StreamMsg.parsed ⟨"log", "late", none, ""⟩)])).errorMessage
          = "upstream timeout"
        ∧ (runStream "http://localhost:5000" "abc"
            ⟨Status.loading, "", [], none, true, []⟩
            ([StreamEvent.message (StreamMsg.parsed ⟨"log", "parsing", none, ""⟩)]
              ++ StreamEvent.message (StreamMsg.parsed ⟨"error", "upstream timeout", none, ""⟩)
                :: [StreamEvent.message (StreamMsg.parsed ⟨"log", "late", none, ""⟩)])).logs
            = ["parsing"]) := by
  refine ⟨by decide, by decide, ?_, ?_⟩
  · exact (error_event_final_state "http://localhost:5000" "abc"
      ⟨Status.loading, "", [], none, true, []⟩
      [StreamEvent.message (StreamMsg.parsed ⟨"log", "parsing", none, ""⟩)]
      [StreamEvent.message (StreamMsg.parsed ⟨"log", "late", none, ""⟩)]
      (StreamEvent.message (StreamMsg.parsed ⟨"error", "upstream timeout", none, ""⟩))
      "upstream timeout" rfl rfl (by decide) (by decide)).2.2.1
  · have h := (error_event_final_state "http://localhost:5000" "abc"
      ⟨Status.loading, "", [], none, true, []⟩
      [StreamEvent.message (StreamMsg.parsed ⟨"log", "parsing", none, ""⟩)]
      [StreamEvent.message (StreamMsg.parsed ⟨"log", "late", none, ""⟩)]
      (StreamEvent.message (StreamMsg.parsed ⟨"error", "upstream timeout", none, ""⟩))
      "upstream timeout" rfl rfl (by decide) (by decide)).2.2.2.2
    rw [h]
    decide

/-- C6: an inbound stream message whose payload is not valid JSON changes
nothing: deleting it from any position of any event sequence leaves the final
state identical, so it touches neither the status, the log buffer, the report,
nor the error message. As a total function of the state, the handler also
cannot throw to the caller; the `catch` branch only logs to the console. -/
theorem malformed_message_no_effect (apiUrl jobId : String) (s : StreamState)
    (l1 l2 : List StreamEvent) :
    runStream apiUrl jobId s (l1 ++ StreamEvent.message StreamMsg.malformed :: l2)
      = runStream apiUrl jobId s (l1 ++ l2) := by
  induction l1 generalizing s with
  | nil =>
    show runStream apiUrl jobId
      (streamStep apiUrl jobId s (StreamEvent.message StreamMsg.malformed)) l2 = _
    have hstep : streamStep apiUrl jobId s (StreamEvent.message StreamMsg.malformed) = s := by
      by_cases hc : s.connOpen = true
      · simp [streamStep, hc, onmessage]
      · exact streamStep_closed apiUrl jobId s _ (by simpa using hc)
    rw [hstep]
    rfl
  | cons e l1 ih =>
    show runStream apiUrl jobId (streamStep apiUrl jobId s e)
        (l1 ++ StreamEvent.message StreamMsg.malformed :: l2) = _
    exact ih (streamStep apiUrl jobId s e)

/-- An event whose processing fires the synthetic-click download: a parsed
`complete` envelope with a truthy (non-empty) `filename`. -/
def firesDownload : StreamEvent → Bool
  | .message (.parsed d) => d.type = "complete" && d.filename ≠ ""
  | _ => false

/-- Invariant backing the at-most-one-download property: while the connection
is open no download has fired, never more than one download fires, and a fired
download pins the status to `success` and has the deterministic URL. -/
def DownloadInv (apiUrl jobId : String) (s : StreamState) : Prop :=
  (s.connOpen = true → s.downloads = [])
  ∧ s.downloads.length ≤ 1
  ∧ (s.downloads ≠ [] →
      s.status = Status.success
      ∧ s.downloads = [apiUrl ++ "/api/download-pdf/" ++ jobId])

theorem downloadInv_step (apiUrl jobId : String) (s : StreamState) (e : StreamEvent)
    (h : DownloadInv apiUrl jobId s) : DownloadInv apiUrl jobId (streamStep apiUrl jobId s e) := by
  obtain ⟨h1, h2, h3⟩ := h
  obtain ⟨st, em, lg, rp, co, dl⟩ := s
  cases co with
  | false => simpa [streamStep] using ⟨h1, h2, h3⟩
  | true =>
    have hdl : dl = [] := h1 rfl
    subst hdl
    cases e with
    | transportFailure =>
      simp [streamStep, onerror, DownloadInv]
    | message m =>
      cases m with
      | malformed =>
        simpa [streamStep, onmessage] using ⟨h1, h2, h3⟩
      | parsed d =>
        by_cases hlog : d.type = "log"
        · simp [streamStep, onmessage, hlog, DownloadInv]
        · by_cases hcomp : d.type = "complete"
          · by_cases hf : d.filename = ""
            · simp [streamStep, onmessage, hlog, hcomp, hf, DownloadInv]
            · simp [streamStep, onmessage, hlog, hcomp, hf, DownloadInv]
          · by_cases herr : d.type = "error"
            · simp [streamStep, onmessage, hlog, hcomp, herr, DownloadInv]
            · simp [streamStep, onmessage, hlog, hcomp, herr, DownloadInv]

theorem downloadInv_run (apiUrl jobId : String) (s : StreamState) (es : List StreamEvent)
    (h : DownloadInv apiUrl jobId s) : DownloadInv apiUrl jobId (runStream apiUrl jobId s es) := by
  induction es generalizing s with
  | nil => exact h
  | cons e es ih => exact ih (streamStep apiUrl jobId s e) (downloadInv_step apiUrl jobId s e h)

theorem downloads_no_fire_step (apiUrl jobId : String) (s : StreamState) (e : StreamEvent)
    (h : firesDownload e = false) :
    (streamStep apiUrl jobId s e).downloads = s.downloads := by
  obtain ⟨st, em, lg, rp, co, dl⟩ := s
  cases co with
  | false => simp [streamStep]
  | true =>
    cases e with
    | transportFailure => simp [streamStep, onerror]
    | message m =>
      cases m with
      | malformed => simp [streamStep, onmessage]
      | parsed d =>
        by_cases hlog : d.type = "log"
        · simp [streamStep, onmessage, hlog]
        · by_cases hcomp : d.type = "complete"
          · have hf : d.filename = "" := by
              simp [firesDownload, hcomp] at h
              exact h
            simp [streamStep, onmessage, hlog, hcomp, hf]
          · by_cases herr : d.type = "error"
            · simp [streamStep, onmessage, hlog, hcomp, herr]
            · simp [streamStep, onmessage, hlog, hcomp, herr]

theorem downloads_no_fire_run (apiUrl jobId : String) (s : StreamState) (es : List StreamEvent)
    (h : ∀ e ∈ es, firesDownload e = false) :
    (runStream apiUrl jobId s es).downloads = s.downloads := by
  induction es generalizing s with
  | nil => rfl
  | cons e es ih =>
    show (runStream apiUrl jobId (streamStep apiUrl jobId s e) es).downloads = _
    rw [ih (streamStep apiUrl jobId s e) (fun x hx => h x (List.mem_cons_of_mem e hx))]
    exact downloads_no_fire_step apiUrl jobId s e (h e (List.mem_cons_self e es))

theorem download_fired_step (apiUrl jobId : String) (s : StreamState) (e : StreamEvent)
    (h : (streamStep apiUrl jobId s e).downloads ≠ s.downloads) :
    firesDownload e = true ∧ (streamStep apiUrl jobId s e).status = Status.success := by
  by_cases hf : firesDownload e = true
  · refine ⟨hf, ?_⟩
    obtain ⟨st, em, lg, rp, co, dl⟩ := s
    cases e with
    | transportFailure => simp [firesDownload] at hf
    | message m =>
      cases m with
      | malformed => simp [firesDownload] at hf
      | parsed d =>
        simp only [firesDownload, Bool.and_eq_true, decide_eq_true_eq, bne_iff_ne,
          ne_eq] at hf
        obtain ⟨hcomp, hfn⟩ := hf
        cases co with
        | false => exact absurd (by simp [streamStep]) h
        | true =>
          have hlog : ¬d.type = "log" := by rw [hcomp]; decide
          simp [streamStep, onmessage, hlog, hcomp, hfn]
  · exact absurd (downloads_no_fire_step apiUrl jobId s e (by simpa using hf)) h

/-- C4: starting from a state in which no download has fired, the artifact
download fires at most once over any event sequence; when it has fired, the
status is `success` (so a download never yields status `error`; the code
ignores the click's outcome entirely) and its URL is the API base followed by
`/api/download-pdf/` and the job identifier; no download fires without a
`complete` event carrying a non-empty filename; and any step that fires a
download is exactly a step into status `success` on such an event. -/
theorem download_fires_at_most_once (apiUrl jobId : String) (init : StreamState)
    (es : List StreamEvent) (h0 : init.downloads = []) :
    (runStream apiUrl jobId init es).downloads.length ≤ 1
    ∧ ((runStream apiUrl jobId init es).downloads ≠ [] →
        (runStream apiUrl jobId init es).status = Status.success
        ∧ (runStream apiUrl jobId init es).downloads
            = [apiUrl ++ "/api/download-pdf/" ++ jobId])
    ∧ ((∀ e ∈ es, firesDownload e = false) →
        (runStream apiUrl jobId init es).downloads = [])
    ∧ (∀ (s : StreamState) (e : StreamEvent),
        (streamStep apiUrl jobId s e).downloads ≠ s.downloads →
          firesDownload e = true
          ∧ (streamStep apiUrl jobId s e).status = Status.success) := by
  have hinit : DownloadInv apiUrl jobId init := by
    refine ⟨fun _ => h0, ?_, fun hne => absurd h0 hne⟩
    rw [h0]
    decide
  have hrun := downloadInv_run apiUrl jobId init es hinit
  exact ⟨hrun.2.1, hrun.2.2,
    fun h => by rw [downloads_no_fire_run apiUrl jobId init es h]; exact h0,
    download_fired_step apiUrl jobId⟩

/-- Witness for `download_fires_at_most_once`: scenario A — the `complete`
event carries filename `"tailored.pdf"` and exactly one download fires, at
the deterministic URL. -/
theorem download_fires_at_most_once_witness :
    (StreamState.downloads ⟨Status.loading, "", [], none, true, []⟩ = [])
    ∧ (runStream "http://localhost:5000" "abc"
        ⟨Status.loading, "", [], none, true, []⟩
        [StreamEvent.message (StreamMsg.parsed ⟨"log", "parsing", none, ""⟩),
         StreamEvent.message (StreamMsg.parsed
           ⟨"complete", "", some ⟨some 82, some ["SQL"], some ["Go"], none, none⟩,
             "tailored.pdf"⟩)]).downloads.length ≤ 1
    ∧ ((runStream "http://localhost:5000" "abc"
          ⟨Status.loading, "", [], none, true, []⟩
          [StreamEvent.message (StreamMsg.parsed ⟨"log", "parsing", none, ""⟩),
           StreamEvent.message (StreamMsg.parsed
             ⟨"complete", "", some ⟨some 82, some ["SQL"], some ["Go"], none, none⟩,
               "tailored.pdf"⟩)]).downloads ≠ [] →
        (runStream "http://localhost:5000" "abc"
          ⟨Status.loading, "", [], none, true, []⟩
          [StreamEvent.message (StreamMsg.parsed ⟨"log", "parsing", none, ""⟩),
           StreamEvent.message (StreamMsg.parsed
             ⟨"complete", "", some ⟨some 82, some ["SQL"], some ["Go"], none, none⟩,
               "tailored.pdf"⟩)]).status = Status.success
        ∧ (runStream "http://localhost:5000" "abc"
            ⟨Status.loading, "", [], none, true, []⟩
            [StreamEvent.message (StreamMsg.parsed ⟨"log", "parsing", none, ""⟩),
             StreamEvent.message (StreamMsg.parsed
               ⟨"complete", "", some ⟨some 82, some ["SQL"], some ["Go"], none, none⟩,
                 "tailored.pdf"⟩)]).downloads
          = ["http://localhost:5000" ++ "/api/download-pdf/" ++ "abc"]) := by
  refine ⟨rfl, ?_, ?_⟩
  · exact (download_fires_at_most_once "http://localhost:5000" "abc"
      ⟨Status.loading, "", [], none, true, []⟩
      [StreamEvent.message (StreamMsg.parsed ⟨"log", "parsing", none, ""⟩),
       StreamEvent.message (StreamMsg.parsed
         ⟨"complete", "", some ⟨some 82, some ["SQL"], some ["Go"], none, none⟩,
           "tailored.pdf"⟩)] rfl).1
  · exact (download_fires_at_most_once "http://localhost:5000" "abc"
      ⟨Status.loading, "", [], none, true, []⟩
      [StreamEvent.message (StreamMsg.parsed ⟨"log", "parsing", none, ""⟩),
       StreamEvent.message (StreamMsg.parsed
         ⟨"complete", "", some ⟨some 82, some ["SQL"], some ["Go"], none, none⟩,
           "tailored.pdf"⟩)] rfl).2.1

/-! ## Connection lifecycle

The `useEffect` in `App.tsx` (lines 34–78) is keyed on `jobId`. React's
contract for such an effect is: on every change of the dependency, the
previous effect run's cleanup executes (closing the `EventSource` that run
created, lines 75–77) before the new effect body runs; the body opens a new
`EventSource` only when the guard `if (!jobId || status === 'error') return`
(line 35) does not fire. A terminal stream event also closes the current
`EventSource` from inside its handler. `EventSource` connections are tracked
by a fresh `Nat` handle so that "how many connections are open" is a real
count, not something baked into the state type. -/

/-- The connection-lifecycle state: a fresh-handle counter, the handles of all
currently open `EventSource` connections, and the handle held by the current
effect run's closure (still held after a terminal event closed it). -/
structure SessionSys where
  nextHandle : Nat
  openHandles : List Nat
  effectHandle : Option Nat
deriving DecidableEq, Repr

/-- An action on the connection lifecycle: a change of the `jobId` dependency
(with the `status` value the effect body reads through its guard), or a
stream event delivered to the current connection. -/
inductive SysAction where
  | jobIdChange (j : Option String) (st : Status)
  | streamEvt (e : StreamEvent)
deriving DecidableEq, Repr

/-- The effect cleanup (lines 75–77): close the `EventSource` created by the
previous effect run. Closing is idempotent — a handle already closed by a
terminal event is simply absent from `openHandles`. -/
def cleanupEffect (s : SessionSys) : SessionSys :=
  { s with openHandles := s.openHandles.filter (fun h => s.effectHandle ≠ some h) }

/-- The effect body (lines 35–38): skip when the identifier is cleared
(`null`/`undefined`) or empty (JavaScript falsiness of `!jobId`) or the status
is `error`; otherwise open a fresh `EventSource` for the job. -/
def effectBody (s : SessionSys) (j : Option String) (st : Status) : SessionSys :=
  match j with
  | none => { s with effectHandle := none }
  | some jid =>
    if jid = "" ∨ st = Status.error then
      { s with effectHandle := none }
    else
      { s with openHandles := s.openHandles ++ [s.nextHandle]
               effectHandle := some s.nextHandle
               nextHandle := s.nextHandle + 1 }

/-- One lifecycle action: a `jobId` change runs cleanup, then the body; a
terminal stream event delivered to a still-open current connection closes it
(`eventSource.close()` on lines 48, 62, 72). Events for closed connections
are not delivered. -/
def sysStep (s : SessionSys) (a : SysAction) : SessionSys :=
  match a with
  | .jobIdChange j st => effectBody (cleanupEffect s) j st
  | .streamEvt e =>
    match s.effectHandle with
    | some h =>
      if h ∈ s.openHandles ∧ e.isTerminal = true then
        { s with openHandles := s.openHandles.filter (fun x => x ≠ h) }
      else
        s
    | none => s

/-- Initial lifecycle state: no connection, no effect run yet. -/
def initSys : SessionSys := ⟨0, [], none⟩

/-- Run a sequence of lifecycle actions from the initial state. -/
def runSys (acts : List SysAction) : SessionSys := acts.foldl sysStep initSys

/-- Lifecycle invariant: the open connections are at most the one held by the
current effect run. -/
def SysInv (s : SessionSys) : Prop :=
  s.openHandles = [] ∨ ∃ h, s.openHandles = [h] ∧ s.effectHandle = some h

theorem cleanupEffect_empties (s : SessionSys) (h : SysInv s) :
    (cleanupEffect s).openHandles = [] := by
  cases h with
  | inl h0 => simp [cleanupEffect, h0]
  | inr hex =>
    obtain ⟨h, hopen, heff⟩ := hex
    simp [cleanupEffect, hopen, heff]

theorem sysInv_step (s : SessionSys) (a : SysAction) (h : SysInv s) :
    SysInv (sysStep s a) := by
  cases a with
  | jobIdChange j st =>
    have hclean := cleanupEffect_empties s h
    show SysInv (effectBody (cleanupEffect s) j st)
    cases j with
    | none => exact Or.inl hclean
    | some jid =>
      by_cases hguard : jid = "" ∨ st = Status.error
      · simp only [effectBody, if_pos hguard]
        exact Or.inl hclean
      · simp only [effectBody, if_neg hguard]
        exact Or.inr ⟨(cleanupEffect s).nextHandle, by rw [hclean]; rfl, rfl⟩
  | streamEvt e =>
    cases heff : s.effectHandle with
    | none => simpa [sysStep, heff] using h
    | some hd =>
      by_cases hcond : hd ∈ s.openHandles ∧ e.isTerminal = true
      · simp only [sysStep, heff, if_pos hcond]
        cases h with
        | inl h0 => exact Or.inl (by simp [h0])
        | inr hex =>
          obtain ⟨x, hopen, heff2⟩ := hex
          rw [heff] at heff2
          cases heff2
          exact Or.inl (by simp [hopen])
      · simpa [sysStep, heff, if_neg hcond] using h

theorem sysInv_run_from (acts : List SysAction) (s : SessionSys) (h : SysInv s) :
    SysInv (acts.foldl sysStep s) := by
  induction acts generalizing s with
  | nil => exact h
  | cons a acts ih => exact ih (sysStep s a) (sysInv_step s a h)

theorem sysInv_run (acts : List SysAction) : SysInv (runSys acts) :=
  sysInv_run_from acts initSys (Or.inl rfl)

/-- C1: in every reachable lifecycle state at most one stream connection is
open; on every change of the job identifier the cleanup closes any previously
open connection before the effect body runs (the state the body sees has no
open connection); and a change that clears the identifier opens nothing — the
step as a whole leaves no connection open. -/
theorem single_stream_invariant (acts : List SysAction) :
    (runSys acts).openHandles.length ≤ 1
    ∧ (cleanupEffect (runSys acts)).openHandles = []
    ∧ (∀ st : Status,
        (sysStep (runSys acts) (SysAction.jobIdChange none st)).openHandles = []) := by
  have hinv := sysInv_run acts
  have hclean := cleanupEffect_empties (runSys acts) hinv
  refine ⟨?_, hclean, ?_⟩
  · cases hinv with
    | inl h0 => simp [h0]
    | inr hex =>
      obtain ⟨h, hopen, _⟩ := hex
      simp [hopen]
  · intro st
    show (effectBody (cleanupEffect (runSys acts)) none st).openHandles = []
    simpa [effectBody] using hclean

/-! ## Submission (`handleSubmit`, lines 80–131)

The component state that `handleSubmit` reads and writes, the fetch outcome
as an explicit input, and the handler split at its first network suspension
point: `submitLocal` is everything up to the validation guard and the state
reset (lines 82–92), `submitResponse` is the processing of the fetch outcome
(lines 114–130). The boolean returned by `submitLocal` records whether the
network request is made. The session lookup and `Authorization` header
(lines 98–112) affect only the outgoing request, never the component state,
and are not part of the state model. -/

/-- The `App` component state variables relevant to submission. -/
structure AppState where
  url : String
  resumeFile : Option String
  status : Status
  errorMessage : String
  jobId : Option String
  logs : List String
  report : Option ReportCard
deriving DecidableEq, Repr

/-- The validation message of line 83. -/
def validationMessage : String := "Please provide both a Job URL and your base Resume PDF."

/-- The body of the job-start response: either `response.json()` rejects with
some message, or it yields an object whose `error` and `job_id` fields may
each be absent. -/
inductive ResponseBody where
  | parseFailure (msg : String)
  | jsonBody (errorField : Option String) (job_id : Option String)
deriving DecidableEq, Repr

/-- The outcome of the `fetch` call: the promise rejects (network failure),
or a response arrives with an `ok` flag, a status text and a body. -/
inductive FetchOutcome where
  | networkFailure (msg : String)
  | response (ok : Bool) (statusText : String) (body : ResponseBody)
deriving DecidableEq, Repr

/-- Lines 82–92: the validation guard (`!url || !resumeFile`, with `""` and
`null` falsy) and, on valid input, the state reset executed before the
network request. The boolean is whether execution proceeds to the request. -/
def submitLocal (s : AppState) : AppState × Bool :=
  if s.url = "" ∨ s.resumeFile = none then
    ({ s with errorMessage := validationMessage
              status := Status.error }, false)
  else
    ({ s with status := Status.loading
              errorMessage := ""
              logs := []
              report := none
              jobId := none }, true)

/-- Lines 114–123: the message thrown for a non-ok response —
`errorData.error || "Failed to start optimization job."` when the body parses
(an empty `error` field is falsy), `` `Server error: ${response.statusText}` ``
when it does not. -/
def nonOkMessage (statusText : String) (body : ResponseBody) : String :=
  match body with
  | .parseFailure _ => "Server error: " ++ statusText
  | .jsonBody errorField _ =>
    match errorField with
    | some m => if m = "" then "Failed to start optimization job." else m
    | none => "Failed to start optimization job."

/-- Lines 96–130: processing of the fetch outcome from the post-reset state.
A rejected fetch, a thrown non-ok error, and a rejected `response.json()` all
land in the `catch` block (lines 127–130), which records the message and sets
status `error`; a parsed ok body only assigns `data.job_id` (line 126). -/
def submitResponse (s : AppState) (outcome : FetchOutcome) : AppState :=
  match outcome with
  | .networkFailure msg => { s with errorMessage := msg, status := Status.error }
  | .response ok statusText body =>
    if ok = false then
      { s with errorMessage := nonOkMessage statusText body, status := Status.error }
    else
      match body with
      | .parseFailure msg => { s with errorMessage := msg, status := Status.error }
      | .jsonBody _ jid => { s with jobId := jid }

/-- The whole of `handleSubmit`: the local phase, then — only when it
proceeded — the response phase. -/
def handleSubmit (s : AppState) (outcome : FetchOutcome) : AppState × Bool :=
  let r := submitLocal s
  if r.2 then (submitResponse r.1 outcome, true) else r

/-- C5: a submission missing the URL or the resume file ends in status
`error` with the validation message, makes no network request, and assigns
no job identifier (the identifier is left exactly as it was). -/
theorem invalid_submission_no_network (s : AppState) (outcome : FetchOutcome)
    (h : s.url = "" ∨ s.resumeFile = none) :
    (handleSubmit s outcome).2 = false
    ∧ (handleSubmit s outcome).1.status = Status.error
    ∧ (handleSubmit s outcome).1.errorMessage = validationMessage
    ∧ (handleSubmit s outcome).1.jobId = s.jobId := by
  simp [handleSubmit, submitLocal, if_pos h]

/-- Witness for `invalid_submission_no_network`: scenario B — a URL but no
file. -/
theorem invalid_submission_no_network_witness :
    ((⟨"https://x", none, Status.idle, "", none, [], none⟩ : AppState).url = ""
      ∨ (⟨"https://x", none, Status.idle, "", none, [], none⟩ : AppState).resumeFile = none)
    ∧ ((handleSubmit ⟨"https://x", none, Status.idle, "", none, [], none⟩
          (FetchOutcome.response true "OK" (ResponseBody.jsonBody none (some "abc")))).2 = false
        ∧ (handleSubmit ⟨"https://x", none, Status.idle, "", none, [], none⟩
            (FetchOutcome.response true "OK" (ResponseBody.jsonBody none (some "abc")))).1.jobId
          = none) := by
  refine ⟨Or.inr rfl, ?_⟩
  have h := invalid_submission_no_network
    ⟨"https://x", none, Status.idle, "", none, [], none⟩
    (FetchOutcome.response true "OK" (ResponseBody.jsonBody none (some "abc")))
    (Or.inr rfl)
  exact ⟨h.1, h.2.2.2⟩

/-- C10: a submission failing local validation changes only the status and the
error message — the job identifier, log buffer, report, and input fields are
all left unchanged, so logs and a report from an earlier job persist. -/
theorem invalid_submission_frame (s : AppState) (outcome : FetchOutcome)
    (h : s.url = "" ∨ s.resumeFile = none) :
    (handleSubmit s outcome).1
      = { s with errorMessage := validationMessage, status := Status.error } := by
  simp [handleSubmit, submitLocal, if_pos h]

/-- Witness for `invalid_submission_frame`: a validation failure after an
earlier successful job keeps that job's identifier, logs and report. -/
theorem invalid_submission_frame_witness :
    ((⟨"", some "resume.pdf", Status.success, "", some "old", ["l1", "l2"],
        some ⟨some 82, none, none, none, none⟩⟩ : AppState).url = ""
      ∨ (⟨"", some "resume.pdf", Status.success, "", some "old", ["l1", "l2"],
          some ⟨some 82, none, none, none, none⟩⟩ : AppState).resumeFile = none)
    ∧ (handleSubmit
        ⟨"", some "resume.pdf", Status.success, "", some "old", ["l1", "l2"],
          some ⟨some 82, none, none, none, none⟩⟩
        (FetchOutcome.networkFailure "unreachable")).1
      = ⟨"", some "resume.pdf", Status.error, validationMessage, some "old", ["l1", "l2"],
          some ⟨some 82, none, none, none, none⟩⟩ := by
  refine ⟨Or.inl rfl, ?_⟩
  exact invalid_submission_frame
    ⟨"", some "resume.pdf", Status.success, "", some "old", ["l1", "l2"],
      some ⟨some 82, none, none, none, none⟩⟩
    (FetchOutcome.networkFailure "unreachable") (Or.inl rfl)

/-- C7: a submission with a URL and a file transitions to status `loading`
and clears the prior log buffer, report, job identifier and error message in
the local phase — before any network outcome is consulted: every outcome is
then processed from exactly that reset state. -/
theorem valid_submission_resets_state (s : AppState)
    (h1 : s.url ≠ "") (h2 : s.resumeFile ≠ none) :
    submitLocal s
      = ({ s with status := Status.loading
                  errorMessage := ""
                  logs := []
                  report := none
                  jobId := none }, true)
    ∧ ∀ outcome : FetchOutcome,
        handleSubmit s outcome
          = (submitResponse
              { s with status := Status.loading
                       errorMessage := ""
                       logs := []
                       report := none
                       jobId := none } outcome, true) := by
  have hguard : ¬(s.url = "" ∨ s.resumeFile = none) := by
    rintro (hc | hc)
    · exact h1 hc
    · exact h2 hc
  constructor
  · simp [submitLocal, if_neg hguard]
  · intro outcome
    simp [handleSubmit, submitLocal, if_neg hguard]

/-- Witness for `valid_submission_resets_state`: scenario A's submission over
stale state from a previous job. -/
theorem valid_submission_resets_state_witness :
    ((⟨"https://x", some "resume.pdf", Status.error, "old failure", some "old",
        ["stale"], some ⟨some 10, none, none, none, none⟩⟩ : AppState).url ≠ ""
      ∧ (⟨"https://x", some "resume.pdf", Status.error, "old failure", some "old",
          ["stale"], some ⟨some 10, none, none, none, none⟩⟩ : AppState).resumeFile ≠ none)
    ∧ submitLocal
        ⟨"https://x", some "resume.pdf", Status.error, "old failure", some "old",
          ["stale"], some ⟨some 10, none, none, none, none⟩⟩
      = (⟨"https://x", some "resume.pdf", Status.loading, "", none, [], none⟩, true) := by
  refine ⟨⟨by decide, by decide⟩, ?_⟩
  exact (valid_submission_resets_state
    ⟨"https://x", some "resume.pdf", Status.error, "old failure", some "old",
      ["stale"], some ⟨some 10, none, none, none, none⟩⟩
    (by decide) (by decide)).1

/-- C8: a valid submission answered by a non-ok response ends in status
`error` with no job identifier set; the message is the body's `error` field
when the body parses as JSON and carries a non-empty one, the fixed generic
message `"Failed to start optimization job."` when the body parses without
one (or with an empty, hence falsy, one), and the status-derived
`"Server error: <statusText>"` when the body fails to parse. -/
theorem non_ok_response_error_state (s : AppState) (statusText : String)
    (body : ResponseBody) (h1 : s.url ≠ "") (h2 : s.resumeFile ≠ none) :
    (handleSubmit s (FetchOutcome.response false statusText body)).1.status = Status.error
    ∧ (handleSubmit s (FetchOutcome.response false statusText body)).1.jobId = none
    ∧ (handleSubmit s (FetchOutcome.response false statusText body)).1.errorMessage
        = nonOkMessage statusText body
    ∧ (∀ m jid, body = ResponseBody.jsonBody (some m) jid → m ≠ "" →
        nonOkMessage statusText body = m)
    ∧ (∀ jid, body = ResponseBody.jsonBody none jid →
        nonOkMessage statusText body = "Failed to start optimization job.")
    ∧ (∀ msg, body = ResponseBody.parseFailure msg →
        nonOkMessage statusText body = "Server error: " ++ statusText) := by
  have hguard : ¬(s.url = "" ∨ s.resumeFile = none) := by
    rintro (hc | hc)
    · exact h1 hc
    · exact h2 hc
  refine ⟨?_, ?_, ?_, ?_, ?_, ?_⟩
  · simp [handleSubmit, submitLocal, if_neg hguard, submitResponse]
  · simp [handleSubmit, submitLocal, if_neg hguard, submitResponse]
  · simp [handleSubmit, submitLocal, if_neg hguard, submitResponse]
  · rintro m jid rfl hm
    simp [nonOkMessage, hm]
  · rintro jid rfl
    simp [nonOkMessage]
  · rintro msg rfl
    simp [nonOkMessage]

/-- Witness for `non_ok_response_error_state`: a 400 response whose body
carries `error: "invalid url"`. -/
theorem non_ok_response_error_state_witness :
    ((⟨"https://x", some "resume.pdf", Status.idle, "", none, [], none⟩ : AppState).url ≠ ""
      ∧ (⟨"https://x", some "resume.pdf", Status.idle, "", none, [], none⟩
          : AppState).resumeFile ≠ none)
    ∧ ((handleSubmit ⟨"https://x", some "resume.pdf", Status.idle, "", none, [], none⟩
          (FetchOutcome.response false "Bad Request"
            (ResponseBody.jsonBody (some "invalid url") none))).1.status = Status.error
        ∧ (handleSubmit ⟨"https://x", some "resume.pdf", Status.idle, "", none, [], none⟩
            (FetchOutcome.response false "Bad Request"
              (ResponseBody.jsonBody (some "invalid url") none))).1.errorMessage
          = nonOkMessage "Bad Request" (ResponseBody.jsonBody (some "invalid url") none)) := by
  refine ⟨⟨by decide, by decide⟩, ?_⟩
  have h := non_ok_response_error_state
    ⟨"https://x", some "resume.pdf", Status.idle, "", none, [], none⟩
    "Bad Request" (ResponseBody.jsonBody (some "invalid url") none)
    (by decide) (by decide)
  exact ⟨h.1, h.2.2.1⟩

/-- C9: a valid submission answered by an ok response whose JSON body has no
`job_id` field leaves the job identifier absent, the error message empty, and
the status at `loading`; and the stream effect opens no connection for an
absent identifier, so nothing can ever move the status on. -/
theorem ok_response_missing_job_id (s : AppState) (statusText : String)
    (errorField : Option String) (h1 : s.url ≠ "") (h2 : s.resumeFile ≠ none) :
    (handleSubmit s (FetchOutcome.response true statusText
        (ResponseBody.jsonBody errorField none))).1.jobId = none
    ∧ (handleSubmit s (FetchOutcome.response true statusText
        (ResponseBody.jsonBody errorField none))).1.status = Status.loading
    ∧ (handleSubmit s (FetchOutcome.response true statusText
        (ResponseBody.jsonBody errorField none))).1.errorMessage = ""
    ∧ (∀ (sys : SessionSys) (st : Status),
        (effectBody sys none st).openHandles = sys.openHandles) := by
  have hguard : ¬(s.url = "" ∨ s.resumeFile = none) := by
    rintro (hc | hc)
    · exact h1 hc
    · exact h2 hc
  refine ⟨?_, ?_, ?_, fun sys st => rfl⟩ <;>
    simp [handleSubmit, submitLocal, if_neg hguard, submitResponse]

/-- Witness for `ok_response_missing_job_id`: a 200 response with body `{}`. -/
theorem ok_response_missing_job_id_witness :
    ((⟨"https://x", some "resume.pdf", Status.idle, "", none, [], none⟩ : AppState).url ≠ ""
      ∧ (⟨"https://x", some "resume.pdf", Status.idle, "", none, [], none⟩
          : AppState).resumeFile ≠ none)
    ∧ ((handleSubmit ⟨"https://x", some "resume.pdf", Status.idle, "", none, [], none⟩
          (FetchOutcome.response true "OK" (ResponseBody.jsonBody none none))).1.jobId = none
        ∧ (handleSubmit ⟨"https://x", some "resume.pdf", Status.idle, "", none, [], none⟩
            (FetchOutcome.response true "OK"
              (ResponseBody.jsonBody none none))).1.status = Status.loading) := by
  refine ⟨⟨by decide, by decide⟩, ?_⟩
  have h := ok_response_missing_job_id
    ⟨"https://x", some "resume.pdf", Status.idle, "", none, [], none⟩
    "OK" none (by decide) (by decide)
  exact ⟨h.1, h.2.1⟩

end AiHrPlatform
